import Mathlib

/-!
Verification of the prediction-aggregation logic of the real-time fraud
detection app (`streamlit_app.py`).  Probabilities are modelled as exact
rationals.  The predictions mapping produced by `process_transaction` is
modelled by the `Predictions` structure: the `svc` model exposes named
fields `non_fraud` / `fraud`, the other three models expose a positional
pair (index 0 = normal probability, index 1 = fraud probability), which
is exactly the shape every consumer site in `streamlit_app.py` assumes.
-/

/-- The four model keys (`model_keys` in `streamlit_app.py`, line 302). -/
inductive ModelKey
  | logistic
  | kneighbors
  | svc
  | tree
deriving DecidableEq, Repr

/-- The canonical key order `["logistic", "kneighbors", "svc", "tree"]`. -/
def allKeys : List ModelKey := [.logistic, .kneighbors, .svc, .tree]

/-- Output of the `svc` model: named fields `non_fraud` / `fraud`. -/
structure SvcPred where
  non_fraud : ℚ
  fraud : ℚ
deriving DecidableEq, Repr

/-- A well-formed predictions mapping as consumed by `streamlit_app.py`:
`svc` maps to named fields, every other model key maps to a positional
pair whose first component is the normal probability and whose second
component is the fraud probability. -/
structure Predictions where
  logistic : ℚ × ℚ
  kneighbors : ℚ × ℚ
  svc : SvcPred
  tree : ℚ × ℚ
deriving DecidableEq, Repr

/-- Fraud-probability extraction in `plot_predictions`
(`streamlit_app.py` lines 101-105): for `svc` read the named field
`fraud`, otherwise read positional element 1. -/
def plotFraudOf (p : Predictions) : ModelKey → ℚ
  | .svc => p.svc.fraud
  | .logistic => p.logistic.2
  | .kneighbors => p.kneighbors.2
  | .tree => p.tree.2

/-- Fraud-probability extraction in `main`
(`streamlit_app.py` lines 268-274): for `svc` read `pred['fraud']`,
otherwise read `pred[1]`. -/
def mainFraudOf (p : Predictions) : ModelKey → ℚ
  | .svc => p.svc.fraud
  | .logistic => p.logistic.2
  | .kneighbors => p.kneighbors.2
  | .tree => p.tree.2

/-- The `fraud_probs` list built in `main` (lines 268-274), one entry per
model in the canonical key order. -/
def mainFraudProbs (p : Predictions) : List ℚ :=
  allKeys.map (mainFraudOf p)

/-- `np.mean` of a list of rationals: sum divided by length. -/
def npMean (l : List ℚ) : ℚ := l.sum / (l.length : ℚ)

/-- `np.max` of a list of rationals (maximum of the elements; the code
only applies it to the non-empty four-element `fraud_probs` list). -/
def npMax : List ℚ → ℚ
  | [] => 0
  | x :: xs => xs.foldl max x

/-- `avg_fraud_prob = np.mean(fraud_probs)` (`streamlit_app.py` line 276). -/
def avg_fraud_prob (p : Predictions) : ℚ := npMean (mainFraudProbs p)

/-- `max_fraud_prob = np.max(fraud_probs)` (`streamlit_app.py` line 277). -/
def max_fraud_prob (p : Predictions) : ℚ := npMax (mainFraudProbs p)

/-- Which of the two alert banners `main` renders. -/
inductive AlertDisplay
  | fraudAlert
  | safeTransaction
deriving DecidableEq, Repr

/-- The alert decision in `main` (`streamlit_app.py` lines 280-295):
the fraud banner when `avg_fraud_prob > 0.5`, the safe banner otherwise. -/
def alertDisplay (p : Predictions) : AlertDisplay :=
  if avg_fraud_prob p > 1/2 then .fraudAlert else .safeTransaction

/-- Pair extraction, as (normal, fraud), in the per-model metrics panel
(`streamlit_app.py` lines 304-311). -/
def metricsPairOf (p : Predictions) : ModelKey → ℚ × ℚ
  | .svc => (p.svc.non_fraud, p.svc.fraud)
  | .logistic => (p.logistic.1, p.logistic.2)
  | .kneighbors => (p.kneighbors.1, p.kneighbors.2)
  | .tree => (p.tree.1, p.tree.2)

/-- Pair extraction, as (normal, fraud), in the detail table
(`streamlit_app.py` lines 342-348). -/
def tablePairOf (p : Predictions) : ModelKey → ℚ × ℚ
  | .svc => (p.svc.non_fraud, p.svc.fraud)
  | .logistic => (p.logistic.1, p.logistic.2)
  | .kneighbors => (p.kneighbors.1, p.kneighbors.2)
  | .tree => (p.tree.1, p.tree.2)

/-- The `Predicción` column of the detail table (`streamlit_app.py`
line 354): `'FRAUDE' if fraud_prob > 0.5 else 'NORMAL'`. -/
def tableLabelOf (p : Predictions) (k : ModelKey) : String :=
  if (tablePairOf p k).2 > 1/2 then "FRAUDE" else "NORMAL"

/-- Claim C1: for every predictions mapping scored against the four
models, `avg_fraud_prob` equals the arithmetic mean of the four
per-model fraud probabilities and `max_fraud_prob` equals their
maximum. -/
theorem mean_and_max_are_arithmetic (p : Predictions) :
    avg_fraud_prob p =
      (p.logistic.2 + p.kneighbors.2 + p.svc.fraud + p.tree.2) / 4 ∧
    max_fraud_prob p =
      max (max (max p.logistic.2 p.kneighbors.2) p.svc.fraud) p.tree.2 := by
  constructor
  · simp [avg_fraud_prob, npMean, mainFraudProbs, allKeys, mainFraudOf]
    ring
  · simp [max_fraud_prob, npMax, mainFraudProbs, allKeys, mainFraudOf]

/-- Claim C2: the fraud alert banner is shown iff the mean fraud
probability strictly exceeds 0.5; at exactly 0.5 the safe banner is
shown. -/
theorem alert_iff_mean_above_half (p : Predictions) :
    (alertDisplay p = .fraudAlert ↔ 1/2 < avg_fraud_prob p) ∧
    (avg_fraud_prob p = 1/2 → alertDisplay p = .safeTransaction) := by
  constructor
  · unfold alertDisplay
    split
    · simp_all
    · simp_all
  · intro h
    unfold alertDisplay
    rw [h]
    simp

/-- Claim C3: the normalization rule — named fields for `svc`,
positional elements 0/1 for every other key — is applied identically at
all three consumer sites (bar chart, metrics panel, detail table), so
they render the same probabilities for the same input. -/
theorem normalization_consistent (p : Predictions) (k : ModelKey) :
    plotFraudOf p k = (metricsPairOf p k).2 ∧
    metricsPairOf p k = tablePairOf p k ∧
    metricsPairOf p .svc = (p.svc.non_fraud, p.svc.fraud) ∧
    metricsPairOf p .logistic = (p.logistic.1, p.logistic.2) ∧
    metricsPairOf p .kneighbors = (p.kneighbors.1, p.kneighbors.2) ∧
    metricsPairOf p .tree = (p.tree.1, p.tree.2) := by
  cases k <;>
    simp [plotFraudOf, metricsPairOf, tablePairOf]

/-- Claim C9: a detail-table row is labelled `FRAUDE` iff that model's
fraud probability is strictly above 0.5, `NORMAL` otherwise, and the
label depends only on that model's own pair (not on the aggregate
mean). -/
theorem table_label_threshold (p : Predictions) (k : ModelKey) :
    (tableLabelOf p k = "FRAUDE" ↔ 1/2 < (tablePairOf p k).2) ∧
    (tableLabelOf p k = "NORMAL" ↔ ¬ 1/2 < (tablePairOf p k).2) ∧
    (∀ q : Predictions, tablePairOf q k = tablePairOf p k →
      tableLabelOf q k = tableLabelOf p k) := by
  refine ⟨?_, ?_, ?_⟩
  · unfold tableLabelOf
    split
    · simp_all
    · simp_all
  · unfold tableLabelOf
    split
    · simp_all
    · simp_all
  · intro q hq
    unfold tableLabelOf
    rw [hq]

/-- Modelled from the spec: `TransactionRecord` (spec section 3) — a
validated transaction: `amount` (non-negative), `time` (integer
seconds-of-day) and the anonymized components `v1..v28` in order.  The
validator producing it (`validate`) and the aggregator consuming it
(`score` / `process_transaction`) live in the `prediction` module, which
is not part of the repository sources. -/
structure TransactionRecord where
  amount : ℚ
  time : ℤ
  features : List ℚ
deriving DecidableEq, Repr

/-- Modelled from the spec: the raw class-probability output of one
model invocation (spec section 4.3) — either a positional vector or a
named `non_fraud` / `fraud` pair; a malformed invocation may yield a
vector of the wrong length. -/
inductive RawOutput
  | positional (vals : List ℚ)
  | named (non_fraud : ℚ) (fraud : ℚ)
deriving DecidableEq, Repr

/-- Modelled from the spec: `ModelScore` (spec section 3), the canonical
normalized pair. -/
structure ModelScore where
  normal_probability : ℚ
  fraud_probability : ℚ
deriving DecidableEq, Repr

/-- Modelled from the spec: `ScoringError` identifying the offending
model key (spec sections 4.3 and 7). -/
structure ScoringError where
  model_key : ModelKey
deriving DecidableEq, Repr

/-- Modelled from the spec: `AggregateResult` (spec section 3) — the
per-model scores plus derived mean, max and alert flag. -/
structure AggregateResult where
  scores : List (ModelKey × ModelScore)
  mean_fraud_probability : ℚ
  max_fraud_probability : ℚ
  is_fraud_alert : Bool
deriving DecidableEq, Repr

/-- Modelled from the spec: the per-model output adapter (spec sections
4.3 and 9) — `svc` exposes named fields `non_fraud`/`fraud`, every other
key exposes a positional pair (element 0 = normal, element 1 = fraud); a
shape mismatch (wrong constructor or wrong vector length) fails. -/
def normalizeOutput (k : ModelKey) (out : RawOutput) : Option ModelScore :=
  match k, out with
  | .svc, .named nf f => some ⟨nf, f⟩
  | .svc, .positional _ => none
  | _, .positional [n, f] => some ⟨n, f⟩
  | _, _ => none

/-- Modelled from the spec: run the adapters over the listed model keys,
short-circuiting to a `ScoringError` naming the first offending key
(spec section 4.3: no failing model is silently dropped). -/
def collectScores (outOf : ModelKey → RawOutput) :
    List ModelKey → Except ScoringError (List (ModelKey × ModelScore))
  | [] => .ok []
  | k :: ks =>
    match normalizeOutput k (outOf k) with
    | none => .error ⟨k⟩
    | some s =>
      match collectScores outOf ks with
      | .error e => .error e
      | .ok rest => .ok ((k, s) :: rest)

/-- Modelled from the spec: `score(record, models)` (spec section 4.3) —
invoke each of the four models, normalize every output, and on full
success return the `AggregateResult` with mean/max fraud probability and
the alert flag; any adapter failure aborts with a `ScoringError`. -/
def score (record : TransactionRecord)
    (models : ModelKey → TransactionRecord → RawOutput) :
    Except ScoringError AggregateResult :=
  match collectScores (fun k => models k record) allKeys with
  | .error e => .error e
  | .ok scores =>
    let fps := scores.map (fun e => e.2.fraud_probability)
    .ok ⟨scores, npMean fps, npMax fps, decide (npMean fps > 1/2)⟩

/-- Deterministic stub models (one probability pair per key) used to
instantiate the aggregator theorems, as in the spec's test scenario. -/
def stubModels : ModelKey → TransactionRecord → RawOutput :=
  fun k _ =>
    match k with
    | .svc => .named (1/2) (1/2)
    | _ => .positional [3/10, 7/10]

/-- Stub model set in which the `tree` model returns a malformed
three-element vector. -/
def malformedStubModels : ModelKey → TransactionRecord → RawOutput :=
  fun k _ =>
    match k with
    | .svc => .named (1/2) (1/2)
    | .tree => .positional [1/10, 2/10, 7/10]
    | _ => .positional [3/10, 7/10]

/-- The spec's scenario record: amount 100.50, time 3600, v1..v28 zero. -/
def sampleRecord : TransactionRecord := ⟨201/2, 3600, List.replicate 28 0⟩

/-- Claim C4: for every valid record whose four model invocations each
normalize to a probability pair summing to 1 within 1e-6, `score`
succeeds and returns exactly four `ModelScore` entries keyed
`logistic`, `kneighbors`, `svc`, `tree`, each satisfying the tolerance. -/
theorem score_returns_four_entries (record : TransactionRecord)
    (models : ModelKey → TransactionRecord → RawOutput)
    (h : ∀ k ∈ allKeys, ∃ s : ModelScore,
      normalizeOutput k (models k record) = some s ∧
      |s.normal_probability + s.fraud_probability - 1| ≤ 1/1000000) :
    ∃ agg : AggregateResult, score record models = .ok agg ∧
      agg.scores.map Prod.fst = allKeys ∧
      agg.scores.length = 4 ∧
      ∀ e ∈ agg.scores,
        |e.2.normal_probability + e.2.fraud_probability - 1| ≤ 1/1000000 := by
  obtain ⟨s1, h1, t1⟩ := h .logistic (by simp [allKeys])
  obtain ⟨s2, h2, t2⟩ := h .kneighbors (by simp [allKeys])
  obtain ⟨s3, h3, t3⟩ := h .svc (by simp [allKeys])
  obtain ⟨s4, h4, t4⟩ := h .tree (by simp [allKeys])
  have hs : collectScores (fun k => models k record) allKeys =
      .ok [(.logistic, s1), (.kneighbors, s2), (.svc, s3), (.tree, s4)] := by
    simp [collectScores, allKeys, h1, h2, h3, h4]
  have hscore : score record models =
      .ok ⟨[(.logistic, s1), (.kneighbors, s2), (.svc, s3), (.tree, s4)],
        npMean [s1.fraud_probability, s2.fraud_probability,
          s3.fraud_probability, s4.fraud_probability],
        npMax [s1.fraud_probability, s2.fraud_probability,
          s3.fraud_probability, s4.fraud_probability],
        decide (npMean [s1.fraud_probability, s2.fraud_probability,
          s3.fraud_probability, s4.fraud_probability] > 1/2)⟩ := by
    simp [score, hs]
  refine ⟨_, hscore, ?_, ?_, ?_⟩
  · simp [allKeys]
  · simp
  · rintro e he
    simp only [List.mem_cons, List.not_mem_nil, or_false] at he
    rcases he with rfl | rfl | rfl | rfl
    · exact t1
    · exact t2
    · exact t3
    · exact t4

/-- Witness for C4: the spec's scenario record against four
deterministic stub models. -/
theorem score_returns_four_entries_witness :
    ∃ agg : AggregateResult, score sampleRecord stubModels = .ok agg ∧
      agg.scores.map Prod.fst = allKeys ∧
      agg.scores.length = 4 ∧
      ∀ e ∈ agg.scores,
        |e.2.normal_probability + e.2.fraud_probability - 1| ≤ 1/1000000 :=
  score_returns_four_entries sampleRecord stubModels (by
    intro k _
    cases k
    · exact ⟨⟨3/10, 7/10⟩, rfl, by norm_num⟩
    · exact ⟨⟨3/10, 7/10⟩, rfl, by norm_num⟩
    · exact ⟨⟨1/2, 1/2⟩, rfl, by norm_num⟩
    · exact ⟨⟨3/10, 7/10⟩, rfl, by norm_num⟩)

/-- Helper: if some listed key fails to normalize, `collectScores`
aborts with a `ScoringError` naming a failing key. -/
theorem collectScores_fail (outOf : ModelKey → RawOutput) :
    ∀ ks : List ModelKey, (∃ k ∈ ks, normalizeOutput k (outOf k) = none) →
    ∃ k, normalizeOutput k (outOf k) = none ∧
      collectScores outOf ks = .error ⟨k⟩ := by
  intro ks
  induction ks with
  | nil =>
    rintro ⟨k, hk, _⟩
    simp at hk
  | cons a as ih =>
    rintro ⟨k, hk, hnone⟩
    by_cases ha : normalizeOutput a (outOf a) = none
    · exact ⟨a, ha, by simp [collectScores, ha]⟩
    · obtain ⟨s, hs⟩ := Option.ne_none_iff_exists'.mp ha
      have hkas : k ∈ as := by
        rcases List.mem_cons.mp hk with rfl | hmem
        · exact absurd hnone ha
        · exact hmem
      obtain ⟨k2, hk2none, hk2eq⟩ := ih ⟨k, hkas, hnone⟩
      exact ⟨k2, hk2none, by simp [collectScores, hs, hk2eq]⟩

/-- Claim C5: whenever any one model invocation fails to normalize
(shape mismatch / wrong vector length), `score` fails with a
`ScoringError` identifying an offending model key, and no
`AggregateResult` is produced — the failing model is never dropped from
the mean/max. -/
theorem score_fails_on_any_model_failure (record : TransactionRecord)
    (models : ModelKey → TransactionRecord → RawOutput)
    (h : ∃ k ∈ allKeys, normalizeOutput k (models k record) = none) :
    ∃ k : ModelKey, normalizeOutput k (models k record) = none ∧
      score record models = .error ⟨k⟩ ∧
      ∀ agg : AggregateResult, score record models ≠ .ok agg := by
  obtain ⟨k, hnone, herr⟩ := collectScores_fail (fun j => models j record) allKeys h
  exact ⟨k, hnone, by simp [score, herr], by simp [score, herr]⟩

/-- Witness for C5: the `tree` stub returns a three-element vector, so
scoring aborts with a `ScoringError` and produces no aggregate. -/
theorem score_fails_witness :
    ∃ k : ModelKey, normalizeOutput k (malformedStubModels k sampleRecord) = none ∧
      score sampleRecord malformedStubModels = .error ⟨k⟩ ∧
      ∀ agg : AggregateResult, score sampleRecord malformedStubModels ≠ .ok agg :=
  score_fails_on_any_model_failure sampleRecord malformedStubModels
    ⟨.tree, by simp [allKeys], rfl⟩

/-- Raw field values at the validation boundary: a non-integer numeric
value, an integer value, or a non-numeric value. -/
inductive RawValue
  | rnum (q : ℚ)
  | rint (n : ℤ)
  | rother
deriving DecidableEq, Repr

/-- Numeric reading of a raw value, when it is numeric. -/
def RawValue.asNum : RawValue → Option ℚ
  | .rnum q => some q
  | .rint n => some (n : ℚ)
  | .rother => none

/-- The anonymized feature keys `v1..v28`, in order. -/
def vKeys : List String := (List.range 28).map (fun i => "v" ++ toString (i + 1))

/-- The exactly-30 required keys: `amount`, `time`, `v1..v28`. -/
def requiredKeys : List String := ["amount", "time"] ++ vKeys

/-- Field lookup in a raw mapping. -/
def lookupField (raw : List (String × RawValue)) (k : String) : Option RawValue :=
  (raw.find? (fun e => e.1 == k)).map Prod.snd

/-- Numeric field lookup: present and numeric. -/
def lookupNum (raw : List (String × RawValue)) (k : String) : Option ℚ :=
  (lookupField raw k).bind RawValue.asNum

/-- Modelled from the spec: `ValidationError` carrying the specific
missing/invalid field name (spec sections 4.2 and 7). -/
structure ValidationError where
  field : String
deriving DecidableEq, Repr

/-- Modelled from the spec: collect the numeric values of the listed
feature keys, failing with a `ValidationError` naming the first missing
or non-numeric key. -/
def collectFeatures (raw : List (String × RawValue)) :
    List String → Except ValidationError (List ℚ)
  | [] => .ok []
  | k :: ks =>
    match lookupNum raw k with
    | none => .error ⟨k⟩
    | some q =>
      match collectFeatures raw ks with
      | .error e => .error e
      | .ok qs => .ok (q :: qs)

/-- Modelled from the spec: `validate(raw)` (spec section 4.2, absent
from the repository sources together with the rest of the `prediction`
module) — rejects any key outside the 30 required ones, requires
`amount` numeric and non-negative, `time` an integer in `[0, 86400]`,
and `v1..v28` numeric; every failure names the offending field. -/
def validate (raw : List (String × RawValue)) :
    Except ValidationError TransactionRecord :=
  match raw.find? (fun e => !(requiredKeys.contains e.1)) with
  | some e => .error ⟨e.1⟩
  | none =>
    match lookupNum raw "amount" with
    | none => .error ⟨"amount"⟩
    | some a =>
      if a < 0 then .error ⟨"amount"⟩
      else
        match lookupField raw "time" with
        | some (.rint t) =>
          if 0 ≤ t ∧ t ≤ 86400 then
            match collectFeatures raw vKeys with
            | .error e => .error e
            | .ok vs => .ok ⟨a, t, vs⟩
          else .error ⟨"time"⟩
        | _ => .error ⟨"time"⟩

/-- A raw mapping holding the 30 required fields with all `v` features
zero and the given `amount` and `time` values. -/
def baseFields (amount : RawValue) (time : RawValue) : List (String × RawValue) :=
  ("amount", amount) :: ("time", time) :: vKeys.map (fun k => (k, RawValue.rnum 0))

/-- Helper: `collectFeatures` succeeds iff every listed key is present
and numeric. -/
theorem collectFeatures_ok_iff (raw : List (String × RawValue)) :
    ∀ ks : List String,
      (∃ l, collectFeatures raw ks = .ok l) ↔
        ∀ k ∈ ks, ∃ q, lookupNum raw k = some q := by
  intro ks
  induction ks with
  | nil => simp [collectFeatures]
  | cons a as ih =>
    constructor
    · rintro ⟨l, hl⟩
      intro k hk
      unfold collectFeatures at hl
      cases ha : lookupNum raw a with
      | none => simp [ha] at hl
      | some q =>
        rw [ha] at hl
        cases hrest : collectFeatures raw as with
        | error e => simp [hrest] at hl
        | ok qs =>
          rcases List.mem_cons.mp hk with rfl | hmem
          · exact ⟨q, ha⟩
          · exact (ih.mp ⟨qs, hrest⟩) k hmem
    · intro hall
      obtain ⟨q, hq⟩ := hall a (List.mem_cons_self a as)
      obtain ⟨l, hl⟩ := ih.mpr (fun k hk => hall k (List.mem_cons_of_mem a hk))
      exact ⟨q :: l, by simp [collectFeatures, hq, hl]⟩


/-- Boolean acceptance view of `validate`. -/
def validationAccepts (raw : List (String × RawValue)) : Bool :=
  match validate raw with
  | .ok _ => true
  | .error _ => false

/-- The failing field reported by `validate`, when it rejects. -/
def errorFieldOf : Except ValidationError TransactionRecord → Option String
  | .error e => some e.field
  | .ok _ => none

/-- Claim C6: validation accepts a raw mapping iff it carries exactly
the 30 keys `amount`, `time`, `v1..v28` with `amount` numeric and
non-negative, `time` an integer in `[0, 86400]` and every `v` numeric;
in particular `time = 0`, `time = 86400` and `amount = 0` are accepted,
while `time = -1`, `time = 86401` and `amount = -0.01` (written
`mkRat (-1) 100`) are rejected with a `ValidationError` naming the
failing field. -/
theorem validate_exact_thirty_keys :
    (∀ raw : List (String × RawValue),
      (∃ r, validate raw = .ok r) ↔
        ((∀ e ∈ raw, e.1 ∈ requiredKeys) ∧
         (∃ a, lookupNum raw "amount" = some a ∧ 0 ≤ a) ∧
         (∃ t : ℤ, lookupField raw "time" = some (.rint t) ∧
           0 ≤ t ∧ t ≤ 86400) ∧
         (∀ k ∈ vKeys, ∃ q, lookupNum raw k = some q))) ∧
    (mkRat 201 2 : ℚ) = 201/2 ∧
    (mkRat (-1) 100 : ℚ) = -1/100 ∧
    validationAccepts (baseFields (.rnum (mkRat 201 2)) (.rint 0)) = true ∧
    validationAccepts (baseFields (.rnum (mkRat 201 2)) (.rint 86400)) = true ∧
    validationAccepts (baseFields (.rnum (mkRat 0 1)) (.rint 3600)) = true ∧
    errorFieldOf (validate (baseFields (.rnum (mkRat 201 2)) (.rint (-1)))) =
      some "time" ∧
    errorFieldOf (validate (baseFields (.rnum (mkRat 201 2)) (.rint 86401))) =
      some "time" ∧
    errorFieldOf (validate (baseFields (.rnum (mkRat (-1) 100)) (.rint 3600))) =
      some "amount" := by
  refine ⟨?_, by rw [Rat.mkRat_eq_div]; norm_num, by rw [Rat.mkRat_eq_div]; push_cast; norm_num,
    by decide, by decide, by decide, by decide, by decide, by decide⟩
  intro raw
  constructor
  · rintro ⟨r, hr⟩
    unfold validate at hr
    split at hr
    · simp at hr
    · rename_i hfind
      split at hr
      · simp at hr
      · rename_i a hamt
        split at hr
        · simp at hr
        · rename_i hneg
          split at hr
          · rename_i t htf
            split at hr
            · rename_i hrange
              split at hr
              · simp at hr
              · rename_i vs hcf
                refine ⟨?_, ⟨a, hamt, not_lt.mp hneg⟩,
                  ⟨t, htf, hrange.1, hrange.2⟩,
                  (collectFeatures_ok_iff raw vKeys).mp ⟨vs, hcf⟩⟩
                intro e he
                have h2 := List.find?_eq_none.mp hfind e he
                simpa using h2
            · simp at hr
          · simp at hr
  · rintro ⟨hkeys, ⟨a, ha, ha0⟩, ⟨t, ht, ht0, ht1⟩, hv⟩
    obtain ⟨l, hl⟩ := (collectFeatures_ok_iff raw vKeys).mpr hv
    have hfind : raw.find? (fun e => !(decide (e.1 ∈ requiredKeys))) = none := by
      rw [List.find?_eq_none]
      intro e he
      simp [hkeys e he]
    refine ⟨⟨a, t, l⟩, ?_⟩
    simp [validate, hfind, ha, ht, hl, not_lt.mpr ha0, ht0, ht1]

/-- `create_sample_transaction` (`streamlit_app.py` lines 73-81): amount
100.50 (as `mkRat 201 2`), time 3600, and `v1..v28` drawn from
`np.random.normal(0, 1)`, modelled by an arbitrary draw function
`rand`. -/
def create_sample_transaction (rand : ℕ → ℚ) : List (String × RawValue) :=
  ("amount", .rnum (mkRat 201 2)) :: ("time", .rint 3600) ::
    (List.range 28).map
      (fun i => ("v" ++ toString (i + 1), RawValue.rnum (rand (i + 1))))

/-- `create_fraud_sample` (`streamlit_app.py` lines 83-92): amount
5000.00, time 25200, and `v1..v28` random draws (wider spread for
v1, v3, v7, v10, v14), modelled by an arbitrary draw function. -/
def create_fraud_sample (rand : ℕ → ℚ) : List (String × RawValue) :=
  ("amount", .rnum (mkRat 5000 1)) :: ("time", .rint 25200) ::
    (List.range 28).map
      (fun i => ("v" ++ toString (i + 1), RawValue.rnum (rand (i + 1))))

/-- Claim C10: both built-in example generators emit exactly the 30
required keys with a strictly positive amount and an in-range integer
time, whatever the random draws, so the canned examples always satisfy
the validator's acceptance condition. -/
theorem samples_satisfy_validator (rand : ℕ → ℚ) :
    ((create_sample_transaction rand).map Prod.fst = requiredKeys ∧
     lookupField (create_sample_transaction rand) "amount" =
       some (.rnum (mkRat 201 2)) ∧
     0 < (mkRat 201 2 : ℚ) ∧
     lookupField (create_sample_transaction rand) "time" =
       some (.rint 3600) ∧
     (0 : ℤ) ≤ 3600 ∧ (3600 : ℤ) ≤ 86400 ∧
     validationAccepts (create_sample_transaction rand) = true) ∧
    ((create_fraud_sample rand).map Prod.fst = requiredKeys ∧
     lookupField (create_fraud_sample rand) "amount" =
       some (.rnum (mkRat 5000 1)) ∧
     0 < (mkRat 5000 1 : ℚ) ∧
     lookupField (create_fraud_sample rand) "time" =
       some (.rint 25200) ∧
     (0 : ℤ) ≤ 25200 ∧ (25200 : ℤ) ≤ 86400 ∧
     validationAccepts (create_fraud_sample rand) = true) := by
  refine ⟨⟨by rfl, by rfl, by decide, by rfl, by decide, by decide, by rfl⟩,
          ⟨by rfl, by rfl, by decide, by rfl, by decide, by decide, by rfl⟩⟩

/-- User-visible message state at the JSON input boundary. -/
inductive JsonMessage
  | validMsg
  | invalidMsg
  | noMsg
deriving DecidableEq, Repr

/-- The JSON input boundary of `main` (`streamlit_app.py` lines
242-256): parse the pasted text when non-empty; on a parse failure show
the invalid-JSON error and fall back to a fresh sample transaction; on
empty input use a fresh sample silently. -/
def handleJsonInput (parse : String → Option (List (String × RawValue)))
    (sample : List (String × RawValue)) (s : String) :
    List (String × RawValue) × JsonMessage :=
  if s = "" then (sample, .noMsg)
  else
    match parse s with
    | some td => (td, .validMsg)
    | none => (sample, .invalidMsg)

/-- Claim C7: on syntactically malformed JSON the boundary surfaces the
invalid-JSON error without crashing and the working record becomes the
independent fallback sample, so no scoring ever runs on data derived
from the malformed input. -/
theorem malformed_json_rejected
    (parse : String → Option (List (String × RawValue)))
    (sample : List (String × RawValue)) (s : String)
    (hs : s ≠ "") (hp : parse s = none) :
    handleJsonInput parse sample s = (sample, .invalidMsg) := by
  unfold handleJsonInput
  rw [if_neg hs, hp]

/-- Witness for C7 at a concrete malformed input. -/
theorem malformed_json_rejected_witness :
    handleJsonInput (fun _ => none) [] "not json" = ([], .invalidMsg) :=
  malformed_json_rejected (fun _ => none) [] "not json" (by decide) rfl

/-- `load_ml_models` (`streamlit_app.py` lines 64-71): wraps
`load_models` from the `prediction` module, returning `none` (after
showing an error) when loading raises, and the complete loaded model
mapping otherwise. -/
def load_ml_models
    (r : Except String (ModelKey → TransactionRecord → RawOutput)) :
    Option (ModelKey → TransactionRecord → RawOutput) :=
  match r with
  | .ok m => some m
  | .error _ => none

/-- How `main` proceeds after model loading (`streamlit_app.py` lines
176-182): abort with an error message when no models are available,
otherwise continue to the scoring UI with the loaded set. -/
inductive MainStart
  | abortNoModels
  | scoringReady (m : ModelKey → TransactionRecord → RawOutput)

/-- The model gate at the top of `main` (`streamlit_app.py` lines
176-182): `if models is None: st.error(...); return`. -/
def mainModelGate
    (r : Except String (ModelKey → TransactionRecord → RawOutput)) :
    MainStart :=
  match load_ml_models r with
  | none => .abortNoModels
  | some m => .scoringReady m

/-- Claim C8: a model-loading failure is fatal for scoring — `main`
aborts after surfacing the error, the scoring path is unreachable, and
scoring is only ever reached with the fully loaded model set. -/
theorem load_failure_is_fatal (msg : String) :
    mainModelGate (.error msg) = .abortNoModels ∧
    (∀ m, mainModelGate (.error msg) ≠ .scoringReady m) ∧
    (∀ (r : Except String (ModelKey → TransactionRecord → RawOutput)) m,
      mainModelGate r = .scoringReady m → r = .ok m) := by
  refine ⟨rfl, ?_, ?_⟩
  · intro m h
    simp [mainModelGate, load_ml_models] at h
  · intro r m h
    cases r with
    | ok m2 =>
      simp [mainModelGate, load_ml_models] at h
      rw [h]
    | error e =>
      simp [mainModelGate, load_ml_models] at h
